import Mathlib

/-!
# PNG codec adaptation layer

A shallow embedding of `src/omv/imlib/png.c` (OpenMV image library).

* Stateful C code is written in explicit state-passing style: every operation
  takes the descriptors it is handed by pointer plus the trace of external
  calls made so far, and returns the descriptors and the trace as they are
  when control leaves the function.
* `mp_raise_msg` / `mp_raise_msg_varg` / `ff_file_corrupted` do not return to
  their caller (MicroPython non-local exit).  A raise therefore ends the
  function at once: the statements that textually follow it are not executed,
  and whatever was written before it stays written.
* The codec (`lodepng_*`), `image_size` and `IMLIB_IMAGE_MAX_SIZE` are declared
  in headers outside this file; they are parameters of the embedding
  (structure `Env`).
* The timing statements (`mp_hal_ticks_ms`, `printf`) have no effect on the
  descriptors, the arena or the store and are left out.
* `size_t` and `uint32_t` coincide on the 32-bit targets of this library, so
  the value of `image_size` is used as it is returned.
-/

namespace Png

/-- One octet of pixel or file storage (C `uint8_t`). -/
abbrev uint8_t := Fin 256

/-- The pixel formats named by `png.c`.  `PIXFORMAT_YUV_ANY` and
`PIXFORMAT_BAYER_ANY` are case-label groups in the source; each group is one
constructor here. -/
inductive pixformat_t
  | PIXFORMAT_BINARY
  | PIXFORMAT_GRAYSCALE
  | PIXFORMAT_RGB565
  | PIXFORMAT_YUV_ANY
  | PIXFORMAT_BAYER_ANY
  | PIXFORMAT_PNG
  deriving DecidableEq, Repr

/-- The image descriptor `image_t`.  `data` is the storage pointer (`pixels` and
`data` name the same union member in the source); `none` is `NULL`. -/
structure image_t where
  w : Nat
  h : Nat
  pixfmt : pixformat_t
  size : Nat
  data : Option (List uint8_t)
  deriving DecidableEq, Repr

/-- Modelled from the spec: the `is_compressed` member of `image_t` is declared
outside this file; the spec's data model says the compressed flag is derived
from the pixel format, and the only compressed format it lists is the
compressed-PNG one. -/
def image_t.is_compressed (img : image_t) : Bool :=
  img.pixfmt == pixformat_t.PIXFORMAT_PNG

/-- Colour layouts of the codec.  The three layouts written by `png.c` are
constructors of their own; every other layout of the codec is `LCT_other` with
its numeric code. -/
inductive LodePNGColorType
  | LCT_GREY
  | LCT_RGB
  | LCT_RGB565
  | LCT_other (code : Nat)
  deriving DecidableEq, Repr

/-- Bit depth and colour layout of one side of the codec (`LodePNGColorMode`). -/
structure LodePNGColorMode where
  bitdepth : Nat
  colortype : LodePNGColorType
  deriving DecidableEq, Repr

/-- The members of `LodePNGState` that `png.c` writes: `info_raw`,
`info_png.color` and `encoder.auto_convert`. -/
structure LodePNGState where
  info_raw : LodePNGColorMode
  info_png_color : LodePNGColorMode
  encoder_auto_convert : Bool
  deriving DecidableEq, Repr

/-- The failures raised by `png.c`: "Input format is not supported", the codec's
own error text for a non-zero codec error code, "Failed to compress image in
place", `ff_file_corrupted`, and a short read of the store. -/
inductive png_error
  | unsupported_format
  | codec_error (code : Nat)
  | in_place_overflow
  | file_corrupted
  | read_fail
  deriving DecidableEq, Repr

/-- What `lodepng_encode` leaves behind: its return value and the two out
parameters `png_data`, `png_size`. -/
structure encode_result where
  error : Nat
  png_data : List uint8_t
  png_size : Nat
  deriving DecidableEq, Repr

/-- What `lodepng_decode` leaves behind: its return value, the out parameter
`png_data` and the values of `dst->w`, `dst->h`, which it receives by pointer. -/
structure decode_result where
  error : Nat
  png_data : List uint8_t
  w : Nat
  h : Nat
  deriving DecidableEq, Repr

/-- The external collaborators of `png.c`, taken as parameters.
`lodepng_decode` receives the current `dst->w` and `dst->h` (second and third
argument) because it is handed pointers to them. -/
structure Env where
  image_size : image_t → Nat
  lodepng_state_init : LodePNGState
  lodepng_encode : LodePNGState → Option (List uint8_t) → Nat → Nat → encode_result
  lodepng_decode : LodePNGState → Nat → Nat → Option (List uint8_t) → Nat → decode_result
  IMLIB_IMAGE_MAX_SIZE : Nat → Nat

/-- External calls with an effect on the arena, the codec or the store, in the
order they are made.  `umm_init_x` stands for `umm_init_x(fb_avail())`, the
acquisition of the arena region; `fb_free` is its release. -/
inductive Event
  | umm_init_x
  | fb_free
  | lodepng_state_init
  | lodepng_encode (state : LodePNGState) (image : Option (List uint8_t)) (w h : Nat)
  | lodepng_decode (state : LodePNGState) (input : Option (List uint8_t)) (insize : Nat)
  | lodepng_state_cleanup
  | memcpy (n : Nat)
  | file_write_open
  | write_data (bytes : List uint8_t)
  | file_close
  deriving DecidableEq, Repr

deriving instance DecidableEq for Except

/-- State of the world when control leaves `png_compress` or `png_decompress`:
the value returned or the failure raised, both descriptors, and the trace. -/
structure outcome (α : Type) where
  result : Except png_error α
  src : image_t
  dst : image_t
  trace : List Event

/-- C `memcpy(dest, src, n)` on byte lists: the first `n` bytes of `dest` are
replaced by the first `n` bytes of `src`. -/
def memcpy (dest src : List uint8_t) (n : Nat) : List uint8_t :=
  src.take n ++ dest.drop n

/-- The `switch (src->pixfmt)` of `png_compress` (lines 54-85).  A format with no
case label leaves the state as initialised. -/
def compress_state (pixfmt : pixformat_t) (state : LodePNGState) :
    Except png_error LodePNGState :=
  match pixfmt with
  | .PIXFORMAT_BINARY =>
    .ok { state with
          info_raw := ⟨1, .LCT_GREY⟩
          encoder_auto_convert := false
          info_png_color := ⟨8, .LCT_GREY⟩ }
  | .PIXFORMAT_GRAYSCALE =>
    .ok { state with
          info_raw := ⟨8, .LCT_GREY⟩
          encoder_auto_convert := false
          info_png_color := ⟨8, .LCT_GREY⟩ }
  | .PIXFORMAT_RGB565 =>
    .ok { state with
          info_raw := ⟨16, .LCT_RGB565⟩
          encoder_auto_convert := false
          info_png_color := ⟨8, .LCT_RGB⟩ }
  | .PIXFORMAT_YUV_ANY => .error .unsupported_format
  | .PIXFORMAT_BAYER_ANY => .error .unsupported_format
  | .PIXFORMAT_PNG => .ok state

/-- The `switch (dst->pixfmt)` of `png_decompress` (lines 129-152). -/
def decompress_state (pixfmt : pixformat_t) (state : LodePNGState) :
    Except png_error LodePNGState :=
  match pixfmt with
  | .PIXFORMAT_BINARY => .ok { state with info_raw := ⟨1, .LCT_GREY⟩ }
  | .PIXFORMAT_GRAYSCALE => .ok { state with info_raw := ⟨8, .LCT_GREY⟩ }
  | .PIXFORMAT_RGB565 =>
    .ok { state with
          info_raw := ⟨16, .LCT_RGB565⟩
          encoder_auto_convert := false
          info_png_color := ⟨8, .LCT_RGB⟩ }
  | .PIXFORMAT_YUV_ANY => .error .unsupported_format
  | .PIXFORMAT_BAYER_ANY => .error .unsupported_format
  | .PIXFORMAT_PNG => .ok state

/-- `png_compress(src, dst)` (lines 39-116). -/
def png_compress (E : Env) (src dst : image_t) (tr : List Event) : outcome Bool :=
  if src.is_compressed then
    ⟨.ok true, src, dst, tr⟩
  else
    let tr1 := tr ++ [Event.umm_init_x, Event.lodepng_state_init]
    match compress_state src.pixfmt E.lodepng_state_init with
    | .error e => ⟨.error e, src, dst, tr1⟩
    | .ok state =>
      let r := E.lodepng_encode state src.data src.w src.h
      let tr2 := tr1 ++ [Event.lodepng_encode state src.data src.w src.h,
                         Event.lodepng_state_cleanup]
      if r.error ≠ 0 then
        ⟨.error (.codec_error r.error), src, dst, tr2⟩
      else
        match dst.data with
        | none =>
          ⟨.ok false, src, { dst with data := some r.png_data, size := r.png_size }, tr2⟩
        | some buf =>
          if E.image_size dst ≤ r.png_size then
            ⟨.ok false, src,
             { dst with size := r.png_size, data := some (memcpy buf r.png_data r.png_size) },
             tr2 ++ [Event.memcpy r.png_size, Event.fb_free]⟩
          else
            ⟨.error .in_place_overflow, src, dst, tr2⟩

/-- `png_decompress(dst, src)` (lines 118-176).  The codec writes `dst->w` and
`dst->h` itself; a `NULL` destination storage stays `NULL`. -/
def png_decompress (E : Env) (dst src : image_t) (tr : List Event) : outcome Unit :=
  let tr1 := tr ++ [Event.umm_init_x, Event.lodepng_state_init]
  match decompress_state dst.pixfmt E.lodepng_state_init with
  | .error e => ⟨.error e, src, dst, tr1⟩
  | .ok state =>
    let img_size := E.image_size dst
    let r := E.lodepng_decode state dst.w dst.h src.data src.size
    let dst1 : image_t := { dst with w := r.w, h := r.h }
    let tr2 := tr1 ++ [Event.lodepng_decode state src.data src.size,
                       Event.lodepng_state_cleanup]
    if r.error ≠ 0 then
      ⟨.error (.codec_error r.error), src, dst1, tr2⟩
    else
      let new_img_size := E.image_size dst1
      if new_img_size ≤ img_size then
        ⟨.ok (), src,
         { dst1 with data := dst1.data.map (fun buf => memcpy buf r.png_data new_img_size) },
         tr2 ++ [Event.memcpy new_img_size, Event.fb_free]⟩
      else
        ⟨.error .in_place_overflow, src, dst1, tr2⟩

/-- State of the world when control leaves `png_write`: success or the failure
raised, the caller's descriptor, and the trace. -/
structure write_outcome where
  result : Except png_error Unit
  img : image_t
  trace : List Event

/-- The `n` bytes that `write_data(fp, p, n)` takes from the storage `p`. -/
def bytes_at (p : Option (List uint8_t)) (n : Nat) : List uint8_t :=
  (p.getD []).take n

/-- `png_write(img, path)` (lines 230-243).  The value returned by
`png_compress` is discarded; a failure raised inside it leaves `png_write` at
that point. -/
def png_write (E : Env) (img : image_t) (tr : List Event) : write_outcome :=
  let tr0 := tr ++ [Event.file_write_open]
  if img.pixfmt = pixformat_t.PIXFORMAT_PNG then
    ⟨.ok (), img, tr0 ++ [Event.write_data (bytes_at img.data img.size), Event.file_close]⟩
  else
    let out : image_t := ⟨img.w, img.h, pixformat_t.PIXFORMAT_PNG, 0, none⟩
    let c := png_compress E img out tr0
    match c.result with
    | .error e => ⟨.error e, c.src, c.trace⟩
    | .ok _ =>
      ⟨.ok (), c.src,
       c.trace ++ [Event.write_data (bytes_at c.dst.data c.dst.size), Event.fb_free,
                   Event.file_close]⟩

/-- Modelled from the spec: the byte store (`FIL`, declared in `ff_wrapper.h`,
outside this file) is a random-access sequence of bytes with a read position;
the spec lists seek, read and total length as its primitives. -/
structure FIL where
  content : List uint8_t
  fptr : Nat
  deriving DecidableEq, Repr

/-- Modelled from the spec: `file_seek(fp, offset)` moves the read position. -/
def file_seek (fp : FIL) (offset : Nat) : FIL :=
  { fp with fptr := offset }

/-- Modelled from the spec: `f_size(fp)` is the total length of the store. -/
def f_size (fp : FIL) : Nat :=
  fp.content.length

/-- Modelled from the spec: `read_long(fp, &v)` reads the next four bytes of the
store into a 32-bit variable of the little-endian target, lowest byte first, and
advances the read position; a read past the end of the store fails. -/
def read_long (fp : FIL) : Except png_error (Nat × FIL) :=
  if fp.fptr + 4 ≤ fp.content.length then
    .ok ((fp.content.getD fp.fptr 0).val
          + 256 * (fp.content.getD (fp.fptr + 1) 0).val
          + 65536 * (fp.content.getD (fp.fptr + 2) 0).val
          + 16777216 * (fp.content.getD (fp.fptr + 3) 0).val,
         { fp with fptr := fp.fptr + 4 })
  else
    .error .read_fail

/-- The compiler builtin `__builtin_bswap32` on a 32-bit value. -/
def bswap32 (x : Nat) : Nat :=
  (x % 256) * 16777216 + (x / 256 % 256) * 65536 + (x / 65536 % 256) * 256
    + (x / 16777216 % 256)

/-- The out record `png_read_settings_t`. -/
structure png_read_settings_t where
  png_w : Nat
  png_h : Nat
  png_size : Nat
  deriving DecidableEq, Repr

/-- State of the world when control leaves `png_read_geometry`. -/
structure read_outcome where
  result : Except png_error Unit
  fp : FIL
  img : image_t
  rs : png_read_settings_t

/-- `png_read_geometry(fp, img, path, rs)` (lines 180-203). -/
def png_read_geometry (E : Env) (fp : FIL) (img : image_t) (rs : png_read_settings_t) :
    read_outcome :=
  let fp0 := file_seek fp 12
  match read_long fp0 with
  | .error e => ⟨.error e, fp0, img, rs⟩
  | .ok (header, fp1) =>
    if header = 0x52444849 then
      match read_long fp1 with
      | .error e => ⟨.error e, fp1, img, rs⟩
      | .ok (width, fp2) =>
        match read_long fp2 with
        | .error e => ⟨.error e, fp2, img, rs⟩
        | .ok (height, fp3) =>
          let rs1 : png_read_settings_t :=
            ⟨bswap32 width, bswap32 height, E.IMLIB_IMAGE_MAX_SIZE (f_size fp3)⟩
          ⟨.ok (), fp3,
           { img with w := rs1.png_w, h := rs1.png_h, size := rs1.png_size,
                      pixfmt := pixformat_t.PIXFORMAT_PNG },
           rs1⟩
    else
      ⟨.error .file_corrupted, fp1, img, rs⟩

/-- Big-endian unsigned 32-bit value of the four bytes of `store` at offsets
`off .. off + 3`. -/
def be32_at (store : List uint8_t) (off : Nat) : Nat :=
  (store.getD off 0).val * 16777216 + (store.getD (off + 1) 0).val * 65536
    + (store.getD (off + 2) 0).val * 256 + (store.getD (off + 3) 0).val

/-- Bytes 12..15 of the store are the ASCII tag "IHDR" (0x49 0x48 0x44 0x52). -/
def has_ihdr_tag (store : List uint8_t) : Prop :=
  store.getD 12 0 = 0x49 ∧ store.getD 13 0 = 0x48 ∧ store.getD 14 0 = 0x44
    ∧ store.getD 15 0 = 0x52

instance (store : List uint8_t) : Decidable (has_ihdr_tag store) := by
  unfold has_ihdr_tag; infer_instance

/-- Number of arena acquisitions (`umm_init_x(fb_avail())`) in a trace. -/
def acquisitions (tr : List Event) : Nat :=
  tr.count Event.umm_init_x

/-- Number of arena releases (`fb_free()`) in a trace. -/
def releases (tr : List Event) : Nat :=
  tr.count Event.fb_free

/-- The pixel formats for which the two switches set up codec parameters. -/
def supported (pixfmt : pixformat_t) : Prop :=
  pixfmt = pixformat_t.PIXFORMAT_BINARY ∨ pixfmt = pixformat_t.PIXFORMAT_GRAYSCALE
    ∨ pixfmt = pixformat_t.PIXFORMAT_RGB565

instance (pixfmt : pixformat_t) : Decidable (supported pixfmt) := by
  unfold supported; infer_instance

/-- The chroma-subsampled and Bayer formats. -/
def yuv_or_bayer (pixfmt : pixformat_t) : Prop :=
  pixfmt = pixformat_t.PIXFORMAT_YUV_ANY ∨ pixfmt = pixformat_t.PIXFORMAT_BAYER_ANY

instance (pixfmt : pixformat_t) : Decidable (yuv_or_bayer pixfmt) := by
  unfold yuv_or_bayer; infer_instance

/-- The codec is a lossless pair on the raw image `raw` of geometry `w` by `h`:
with any encoder and decoder states that agree on the raw side, decoding what
a successful encoder call produced succeeds and gives back `raw`, `w` and `h`. -/
def lossless_on (E : Env) (raw : List uint8_t) (w h : Nat) : Prop :=
  ∀ (se sd : LodePNGState) (w0 h0 : Nat), se.info_raw = sd.info_raw →
    (E.lodepng_encode se (some raw) w h).error = 0 →
    E.lodepng_decode sd w0 h0 (some (E.lodepng_encode se (some raw) w h).png_data)
        (E.lodepng_encode se (some raw) w h).png_size
      = ⟨0, raw, w, h⟩

/-! ## A concrete environment for evaluating the embedding -/

/-- Modelled from the spec: `image_size` is declared outside this file.  The
spec's data model gives, for the uncompressed formats, width × height ×
bytes-per-pixel with Binary 1 bpp, Grayscale 8 bpp and RGB565 16 bpp, and for
every other descriptor its byte-size. -/
def demo_image_size (img : image_t) : Nat :=
  match img.pixfmt with
  | .PIXFORMAT_BINARY => (img.w * img.h + 7) / 8
  | .PIXFORMAT_GRAYSCALE => img.w * img.h
  | .PIXFORMAT_RGB565 => img.w * img.h * 2
  | _ => img.size

/-- A stand-in encoder: the encoded form of a raw image is one byte of width,
one byte of height, then the raw bytes.  A `NULL` image is refused. -/
def demo_encode (_state : LodePNGState) (image : Option (List uint8_t)) (w h : Nat) :
    encode_result :=
  match image with
  | none => ⟨48, [], 0⟩
  | some raw => ⟨0, Fin.ofNat w :: Fin.ofNat h :: raw, raw.length + 2⟩

/-- The matching stand-in decoder; on a malformed input it fails and leaves the
geometry it was handed untouched. -/
def demo_decode (_state : LodePNGState) (w0 h0 : Nat) (input : Option (List uint8_t))
    (insize : Nat) : decode_result :=
  match input with
  | some (w :: h :: raw) => ⟨0, raw.take (insize - 2), w.val, h.val⟩
  | _ => ⟨27, [], w0, h0⟩

/-- The concrete environment: the stand-in codec, the image size of the spec's
data model, and an initial codec state of 8-bit RGBA on both sides with
automatic conversion on. -/
def demo_env : Env where
  image_size := demo_image_size
  lodepng_state_init := ⟨⟨8, .LCT_other 6⟩, ⟨8, .LCT_other 6⟩, true⟩
  lodepng_encode := demo_encode
  lodepng_decode := demo_decode
  IMLIB_IMAGE_MAX_SIZE := fun n => n

/-- A 2 × 2 grayscale image with pixel values 1, 2, 3, 4. -/
def gray_2x2 : image_t :=
  ⟨2, 2, .PIXFORMAT_GRAYSCALE, 4, some [1, 2, 3, 4]⟩

/-- A 1 × 1 grayscale descriptor owning one byte of storage. -/
def gray_1x1 : image_t :=
  ⟨1, 1, .PIXFORMAT_GRAYSCALE, 1, some [0]⟩

/-- A 4 × 4 grayscale image, every pixel 128. -/
def gray_4x4_128 : image_t :=
  ⟨4, 4, .PIXFORMAT_GRAYSCALE, 16, some (List.replicate 16 128)⟩

/-- A 4 × 4 grayscale descriptor owning sixteen zero bytes. -/
def gray_4x4_blank : image_t :=
  ⟨4, 4, .PIXFORMAT_GRAYSCALE, 16, some (List.replicate 16 0)⟩

/-- A 2 × 1 chroma-subsampled image. -/
def yuv_2x1 : image_t :=
  ⟨2, 1, .PIXFORMAT_YUV_ANY, 4, some [16, 128, 16, 128]⟩

/-- A descriptor without storage. -/
def fresh_dst : image_t :=
  ⟨0, 0, .PIXFORMAT_PNG, 0, none⟩

/-- An already compressed descriptor of three bytes. -/
def png_3_bytes : image_t :=
  ⟨2, 2, .PIXFORMAT_PNG, 3, some [7, 8, 9]⟩

/-- The first 24 bytes of a PNG file of a 4 × 4 image: signature, length of the
header chunk, the tag "IHDR", width and height. -/
def png_header_4x4 : List uint8_t :=
  [137, 80, 78, 71, 13, 10, 26, 10, 0, 0, 0, 13, 73, 72, 68, 82, 0, 0, 0, 4, 0, 0, 0, 4]

/-- The stand-in encoding of `gray_2x2`: width 2, height 2, then its four bytes. -/
def png_of_gray_2x2 : image_t :=
  ⟨0, 0, .PIXFORMAT_PNG, 6, some [2, 2, 1, 2, 3, 4]⟩

/-! ## Theorems -/

/-! ### The paths through `png_compress` and `png_decompress` -/

/-- Path of `png_compress`: the switch raises. -/
theorem png_compress_of_switch_error {E : Env} {src dst : image_t} {tr : List Event}
    {e : png_error} (hc : src.is_compressed = false)
    (hs : compress_state src.pixfmt E.lodepng_state_init = .error e) :
    png_compress E src dst tr
      = ⟨.error e, src, dst, tr ++ [Event.umm_init_x, Event.lodepng_state_init]⟩ := by
  simp [png_compress, hc, hs]

/-- Path of `png_compress`: the codec returns a non-zero error code. -/
theorem png_compress_of_codec_error {E : Env} {src dst : image_t} {tr : List Event}
    {st : LodePNGState} (hc : src.is_compressed = false)
    (hs : compress_state src.pixfmt E.lodepng_state_init = .ok st)
    (he : (E.lodepng_encode st src.data src.w src.h).error ≠ 0) :
    png_compress E src dst tr
      = ⟨.error (.codec_error (E.lodepng_encode st src.data src.w src.h).error), src, dst,
         tr ++ [Event.umm_init_x, Event.lodepng_state_init,
                Event.lodepng_encode st src.data src.w src.h, Event.lodepng_state_cleanup]⟩ := by
  simp [png_compress, hc, hs, he]

/-- Path of `png_compress`: the destination has no storage and adopts the
codec's buffer. -/
theorem png_compress_of_adopt {E : Env} {src dst : image_t} {tr : List Event}
    {st : LodePNGState} (hc : src.is_compressed = false)
    (hs : compress_state src.pixfmt E.lodepng_state_init = .ok st)
    (he : (E.lodepng_encode st src.data src.w src.h).error = 0)
    (hd : dst.data = none) :
    png_compress E src dst tr
      = ⟨.ok false, src,
         { dst with data := some (E.lodepng_encode st src.data src.w src.h).png_data,
                    size := (E.lodepng_encode st src.data src.w src.h).png_size },
         tr ++ [Event.umm_init_x, Event.lodepng_state_init,
                Event.lodepng_encode st src.data src.w src.h, Event.lodepng_state_cleanup]⟩ := by
  simp [png_compress, hc, hs, he, hd]

/-- Path of `png_compress`: the destination has storage and the test
`image_size(dst) <= png_size` of line 100 holds. -/
theorem png_compress_of_copy {E : Env} {src dst : image_t} {tr : List Event}
    {st : LodePNGState} {buf : List uint8_t} (hc : src.is_compressed = false)
    (hs : compress_state src.pixfmt E.lodepng_state_init = .ok st)
    (he : (E.lodepng_encode st src.data src.w src.h).error = 0)
    (hd : dst.data = some buf)
    (hle : E.image_size dst ≤ (E.lodepng_encode st src.data src.w src.h).png_size) :
    png_compress E src dst tr
      = ⟨.ok false, src,
         { dst with size := (E.lodepng_encode st src.data src.w src.h).png_size,
                    data := some (memcpy buf (E.lodepng_encode st src.data src.w src.h).png_data
                              (E.lodepng_encode st src.data src.w src.h).png_size) },
         tr ++ [Event.umm_init_x, Event.lodepng_state_init,
                Event.lodepng_encode st src.data src.w src.h, Event.lodepng_state_cleanup,
                Event.memcpy (E.lodepng_encode st src.data src.w src.h).png_size,
                Event.fb_free]⟩ := by
  simp [png_compress, hc, hs, he, hd, hle]

/-- Path of `png_compress`: the destination has storage and the test of line 100
fails. -/
theorem png_compress_of_raise {E : Env} {src dst : image_t} {tr : List Event}
    {st : LodePNGState} {buf : List uint8_t} (hc : src.is_compressed = false)
    (hs : compress_state src.pixfmt E.lodepng_state_init = .ok st)
    (he : (E.lodepng_encode st src.data src.w src.h).error = 0)
    (hd : dst.data = some buf)
    (hlt : (E.lodepng_encode st src.data src.w src.h).png_size < E.image_size dst) :
    png_compress E src dst tr
      = ⟨.error .in_place_overflow, src, dst,
         tr ++ [Event.umm_init_x, Event.lodepng_state_init,
                Event.lodepng_encode st src.data src.w src.h, Event.lodepng_state_cleanup]⟩ := by
  simp [png_compress, hc, hs, he, hd, Nat.not_le.mpr hlt]

/-- Path of `png_decompress`: the switch raises. -/
theorem png_decompress_of_switch_error {E : Env} {dst src : image_t} {tr : List Event}
    {e : png_error} (hs : decompress_state dst.pixfmt E.lodepng_state_init = .error e) :
    png_decompress E dst src tr
      = ⟨.error e, src, dst, tr ++ [Event.umm_init_x, Event.lodepng_state_init]⟩ := by
  simp [png_decompress, hs]

/-- Path of `png_decompress`: the codec returns a non-zero error code. -/
theorem png_decompress_of_codec_error {E : Env} {dst src : image_t} {tr : List Event}
    {st : LodePNGState} (hs : decompress_state dst.pixfmt E.lodepng_state_init = .ok st)
    (he : (E.lodepng_decode st dst.w dst.h src.data src.size).error ≠ 0) :
    png_decompress E dst src tr
      = ⟨.error (.codec_error (E.lodepng_decode st dst.w dst.h src.data src.size).error), src,
         { dst with w := (E.lodepng_decode st dst.w dst.h src.data src.size).w,
                    h := (E.lodepng_decode st dst.w dst.h src.data src.size).h },
         tr ++ [Event.umm_init_x, Event.lodepng_state_init,
                Event.lodepng_decode st src.data src.size, Event.lodepng_state_cleanup]⟩ := by
  simp [png_decompress, hs, he]

/-- Path of `png_decompress`: the decoded image fits. -/
theorem png_decompress_of_copy {E : Env} {dst src : image_t} {tr : List Event}
    {st : LodePNGState} (hs : decompress_state dst.pixfmt E.lodepng_state_init = .ok st)
    (he : (E.lodepng_decode st dst.w dst.h src.data src.size).error = 0)
    (hle : E.image_size { dst with w := (E.lodepng_decode st dst.w dst.h src.data src.size).w,
                                   h := (E.lodepng_decode st dst.w dst.h src.data src.size).h }
            ≤ E.image_size dst) :
    png_decompress E dst src tr
      = ⟨.ok (), src,
         { dst with
           w := (E.lodepng_decode st dst.w dst.h src.data src.size).w,
           h := (E.lodepng_decode st dst.w dst.h src.data src.size).h,
           data := dst.data.map (fun buf =>
             memcpy buf (E.lodepng_decode st dst.w dst.h src.data src.size).png_data
               (E.image_size
                 { dst with w := (E.lodepng_decode st dst.w dst.h src.data src.size).w,
                            h := (E.lodepng_decode st dst.w dst.h src.data src.size).h })) },
         tr ++ [Event.umm_init_x, Event.lodepng_state_init,
                Event.lodepng_decode st src.data src.size, Event.lodepng_state_cleanup,
                Event.memcpy (E.image_size
                  { dst with w := (E.lodepng_decode st dst.w dst.h src.data src.size).w,
                             h := (E.lodepng_decode st dst.w dst.h src.data src.size).h }),
                Event.fb_free]⟩ := by
  simp [png_decompress, hs, he, hle]

/-- Path of `png_decompress`: the decoded image does not fit. -/
theorem png_decompress_of_raise {E : Env} {dst src : image_t} {tr : List Event}
    {st : LodePNGState} (hs : decompress_state dst.pixfmt E.lodepng_state_init = .ok st)
    (he : (E.lodepng_decode st dst.w dst.h src.data src.size).error = 0)
    (hlt : E.image_size dst
            < E.image_size { dst with w := (E.lodepng_decode st dst.w dst.h src.data src.size).w,
                                      h := (E.lodepng_decode st dst.w dst.h src.data src.size).h }) :
    png_decompress E dst src tr
      = ⟨.error .in_place_overflow, src,
         { dst with w := (E.lodepng_decode st dst.w dst.h src.data src.size).w,
                    h := (E.lodepng_decode st dst.w dst.h src.data src.size).h },
         tr ++ [Event.umm_init_x, Event.lodepng_state_init,
                Event.lodepng_decode st src.data src.size, Event.lodepng_state_cleanup]⟩ := by
  simp [png_decompress, hs, he, Nat.not_le.mpr hlt]

/-- Counting one event kind in an extended trace. -/
theorem acquisitions_append (tr ev : List Event) :
    acquisitions (tr ++ ev) = acquisitions tr + acquisitions ev := by
  simp [acquisitions]

/-- Counting releases in an extended trace. -/
theorem releases_append (tr ev : List Event) :
    releases (tr ++ ev) = releases tr + releases ev := by
  simp [releases]

/-- The first `n` bytes after `memcpy` are the first `n` bytes of the source. -/
theorem memcpy_take (dest src : List uint8_t) (n : Nat) (h : n ≤ src.length) :
    (memcpy dest src n).take n = src.take n := by
  unfold memcpy
  rw [List.take_append_of_le_length (by rw [List.length_take]; omega)]
  simp

/-- The bytes from offset `n` on are untouched by `memcpy`. -/
theorem memcpy_drop (dest src : List uint8_t) (n : Nat) (h : n ≤ src.length) :
    (memcpy dest src n).drop n = dest.drop n := by
  unfold memcpy
  have hl : (src.take n).length = n := by rw [List.length_take]; omega
  rw [List.drop_append_eq_append_drop, hl]
  simp [List.drop_eq_nil_of_le, hl]

/-- For each supported format the two switches succeed and agree on the raw
side of the codec state. -/
theorem switches_agree_on_raw (pixfmt : pixformat_t) (s0 : LodePNGState)
    (h : supported pixfmt) :
    ∃ se sd, compress_state pixfmt s0 = .ok se ∧ decompress_state pixfmt s0 = .ok sd ∧
      se.info_raw = sd.info_raw := by
  rcases h with h | h | h <;> subst h <;> exact ⟨_, _, rfl, rfl, rfl⟩

/-- A supported format is not a compressed one. -/
theorem not_compressed_of_supported (img : image_t) (h : supported img.pixfmt) :
    img.is_compressed = false := by
  rcases h with h | h | h <;> simp [image_t.is_compressed, h]

/-- Copying a whole buffer over storage of the same length gives that buffer. -/
theorem memcpy_full (dest src : List uint8_t) (n : Nat) (hs : src.length = n)
    (hd : dest.length = n) : memcpy dest src n = src := by
  unfold memcpy
  rw [List.take_of_length_le (by omega), List.drop_eq_nil_of_le (by omega)]
  simp

/-- The little-endian word of four bytes is 0x52444849 exactly when the bytes
are 0x49 0x48 0x44 0x52 ("IHDR"). -/
theorem le32_eq_ihdr (b0 b1 b2 b3 : uint8_t) :
    b0.val + 256 * b1.val + 65536 * b2.val + 16777216 * b3.val = 0x52444849
      ↔ b0 = 0x49 ∧ b1 = 0x48 ∧ b2 = 0x44 ∧ b3 = 0x52 := by
  have h0 := b0.isLt
  have h1 := b1.isLt
  have h2 := b2.isLt
  have h3 := b3.isLt
  constructor
  · intro h
    exact ⟨Fin.ext (show b0.val = 73 by omega), Fin.ext (show b1.val = 72 by omega),
      Fin.ext (show b2.val = 68 by omega), Fin.ext (show b3.val = 82 by omega)⟩
  · rintro ⟨rfl, rfl, rfl, rfl⟩
    rfl

/-- Swapping the bytes of a little-endian word gives the big-endian value of
the same four bytes. -/
theorem bswap32_le32 (b0 b1 b2 b3 : uint8_t) :
    bswap32 (b0.val + 256 * b1.val + 65536 * b2.val + 16777216 * b3.val)
      = b0.val * 16777216 + b1.val * 65536 + b2.val * 256 + b3.val := by
  have h0 := b0.isLt
  have h1 := b1.isLt
  have h2 := b2.isLt
  have h3 := b3.isLt
  unfold bswap32
  omega

/-- On a store of at least 24 bytes `png_read_geometry` performs no short read:
it either finds the tag and fills in the geometry, or reports the store as
corrupted and writes nothing. -/
theorem png_read_geometry_eq (E : Env) (store : List uint8_t) (p0 : Nat) (img : image_t)
    (rs : png_read_settings_t) (h24 : 24 ≤ store.length) :
    png_read_geometry E ⟨store, p0⟩ img rs
      = if has_ihdr_tag store then
          ⟨.ok (), ⟨store, 24⟩,
           ⟨be32_at store 16, be32_at store 20, .PIXFORMAT_PNG,
            E.IMLIB_IMAGE_MAX_SIZE store.length, img.data⟩,
           ⟨be32_at store 16, be32_at store 20, E.IMLIB_IMAGE_MAX_SIZE store.length⟩⟩
        else
          ⟨.error .file_corrupted, ⟨store, 16⟩, img, rs⟩ := by
  have ha : 12 + 4 ≤ store.length := by omega
  have hb : 16 + 4 ≤ store.length := by omega
  have hc : 20 + 4 ≤ store.length := by omega
  by_cases ht : has_ihdr_tag store
  · have hw := (le32_eq_ihdr (store.getD 12 0) (store.getD 13 0) (store.getD 14 0)
      (store.getD 15 0)).mpr ht
    simp only [png_read_geometry, file_seek, read_long, f_size, ha, hb, hc, hw, if_true, ht,
      bswap32_le32, be32_at]
  · have hw : ¬ ((store.getD 12 0).val + 256 * (store.getD 13 0).val
        + 65536 * (store.getD 14 0).val + 16777216 * (store.getD 15 0).val = 0x52444849) :=
      fun h => ht ((le32_eq_ihdr _ _ _ _).mp h)
    simp only [png_read_geometry, file_seek, read_long, ha, hw, if_true, if_false, ht]

/-! ### The claims -/

/-- C6, counterexample: compressing an already compressed three-byte source
into a destination without storage returns `true` and leaves the destination
with no storage and size 0, which are not the source's bytes and size. -/
theorem png_compress_compressed_dst_differs :
    (png_compress demo_env png_3_bytes fresh_dst []).result = .ok true ∧
    (png_compress demo_env png_3_bytes fresh_dst []).dst.data = none ∧
    (png_compress demo_env png_3_bytes fresh_dst []).dst.data ≠ png_3_bytes.data ∧
    (png_compress demo_env png_3_bytes fresh_dst []).dst.size ≠ png_3_bytes.size := by
  decide

/-- C6, amended: for an already compressed source, `png_compress` returns `true`
at once; it makes no external call at all (no codec call, no arena
acquisition), and both descriptors are exactly as before the call. -/
theorem png_compress_compressed_noop (E : Env) (src dst : image_t) (tr : List Event)
    (hc : src.is_compressed = true) :
    (png_compress E src dst tr).result = .ok true ∧
    (png_compress E src dst tr).trace = tr ∧
    (png_compress E src dst tr).src = src ∧
    (png_compress E src dst tr).dst = dst := by
  simp [png_compress, hc]

/-- Witness of `png_compress_compressed_noop` on the three-byte source. -/
theorem png_compress_compressed_noop_witness :
    (png_compress demo_env png_3_bytes fresh_dst []).result = .ok true ∧
    (png_compress demo_env png_3_bytes fresh_dst []).trace = [] ∧
    (png_compress demo_env png_3_bytes fresh_dst []).src = png_3_bytes ∧
    (png_compress demo_env png_3_bytes fresh_dst []).dst = fresh_dst :=
  png_compress_compressed_noop demo_env png_3_bytes fresh_dst [] (by decide)

/-- C3, counterexample: with a chroma-subsampled source `png_compress` fails
with the unsupported-format error, yet the arena has been acquired. -/
theorem png_compress_yuv_acquires_arena :
    (png_compress demo_env yuv_2x1 gray_4x4_blank []).result = .error .unsupported_format ∧
    Event.umm_init_x ∈ (png_compress demo_env yuv_2x1 gray_4x4_blank []).trace := by
  decide

/-- C3, amended: with a chroma-subsampled or Bayer descriptor, `png_compress`
(descriptor as source) and `png_decompress` (descriptor as destination) fail
with the unsupported-format error; the only external calls they make are the
arena acquisition at entry and the initialisation of the codec state, so
neither `lodepng_encode` nor `lodepng_decode` is called and the arena is not
released; both descriptors are as before the call. -/
theorem unsupported_format_rejected (E : Env) (img other : image_t) (tr : List Event)
    (h : yuv_or_bayer img.pixfmt) :
    ((png_compress E img other tr).result = .error .unsupported_format ∧
     (png_compress E img other tr).trace = tr ++ [Event.umm_init_x, Event.lodepng_state_init] ∧
     (png_compress E img other tr).src = img ∧
     (png_compress E img other tr).dst = other) ∧
    ((png_decompress E img other tr).result = .error .unsupported_format ∧
     (png_decompress E img other tr).trace = tr ++ [Event.umm_init_x, Event.lodepng_state_init] ∧
     (png_decompress E img other tr).src = other ∧
     (png_decompress E img other tr).dst = img) := by
  rcases h with h | h <;>
    simp [png_compress, png_decompress, image_t.is_compressed, compress_state,
      decompress_state, h]

/-- Witness of `unsupported_format_rejected` on a chroma-subsampled image. -/
theorem unsupported_format_rejected_witness :
    ((png_compress demo_env yuv_2x1 gray_4x4_blank []).result = .error .unsupported_format ∧
     (png_compress demo_env yuv_2x1 gray_4x4_blank []).trace
       = [] ++ [Event.umm_init_x, Event.lodepng_state_init] ∧
     (png_compress demo_env yuv_2x1 gray_4x4_blank []).src = yuv_2x1 ∧
     (png_compress demo_env yuv_2x1 gray_4x4_blank []).dst = gray_4x4_blank) ∧
    ((png_decompress demo_env yuv_2x1 gray_4x4_blank []).result = .error .unsupported_format ∧
     (png_decompress demo_env yuv_2x1 gray_4x4_blank []).trace
       = [] ++ [Event.umm_init_x, Event.lodepng_state_init] ∧
     (png_decompress demo_env yuv_2x1 gray_4x4_blank []).src = gray_4x4_blank ∧
     (png_decompress demo_env yuv_2x1 gray_4x4_blank []).dst = yuv_2x1) :=
  unsupported_format_rejected demo_env yuv_2x1 gray_4x4_blank [] (by decide)

/-- C2, counterexample: `png_compress` of a chroma-subsampled source fails, and
when the failure leaves the function the arena has been acquired once and
released zero times. -/
theorem png_compress_failure_not_released :
    (png_compress demo_env yuv_2x1 fresh_dst []).result = .error .unsupported_format ∧
    acquisitions (png_compress demo_env yuv_2x1 fresh_dst []).trace = 1 ∧
    releases (png_compress demo_env yuv_2x1 fresh_dst []).trace = 0 := by
  decide

/-- C2, amended: on every failing call of `png_compress` (source not already
compressed) and every failing call of `png_decompress`, the arena region has
been acquired exactly once at entry and `fb_free` has not been called when the
failure leaves the function: the trace gains one acquisition and no release. -/
theorem failure_leaves_arena_acquired (E : Env) (src dst : image_t) (tr : List Event) :
    (src.is_compressed = false → ∀ e, (png_compress E src dst tr).result = .error e →
      acquisitions (png_compress E src dst tr).trace = acquisitions tr + 1 ∧
      releases (png_compress E src dst tr).trace = releases tr) ∧
    (∀ e, (png_decompress E dst src tr).result = .error e →
      acquisitions (png_decompress E dst src tr).trace = acquisitions tr + 1 ∧
      releases (png_decompress E dst src tr).trace = releases tr) := by
  constructor
  · intro hc e
    cases hs : compress_state src.pixfmt E.lodepng_state_init with
    | error e0 =>
      rw [png_compress_of_switch_error hc hs]
      intro _
      simp [acquisitions_append, releases_append, acquisitions, releases, List.count_cons]
    | ok st =>
      by_cases he : (E.lodepng_encode st src.data src.w src.h).error = 0
      · cases hd : dst.data with
        | none => rw [png_compress_of_adopt hc hs he hd]; intro h; cases h
        | some buf =>
          by_cases hle : E.image_size dst ≤ (E.lodepng_encode st src.data src.w src.h).png_size
          · rw [png_compress_of_copy hc hs he hd hle]; intro h; cases h
          · rw [png_compress_of_raise hc hs he hd (Nat.lt_of_not_le hle)]
            intro _
            simp [acquisitions_append, releases_append, acquisitions, releases, List.count_cons]
      · rw [png_compress_of_codec_error hc hs he]
        intro _
        simp [acquisitions_append, releases_append, acquisitions, releases, List.count_cons]
  · intro e
    cases hs : decompress_state dst.pixfmt E.lodepng_state_init with
    | error e0 =>
      rw [png_decompress_of_switch_error hs]
      intro _
      simp [acquisitions_append, releases_append, acquisitions, releases, List.count_cons]
    | ok st =>
      by_cases he : (E.lodepng_decode st dst.w dst.h src.data src.size).error = 0
      · by_cases hle : E.image_size
            { dst with w := (E.lodepng_decode st dst.w dst.h src.data src.size).w,
                       h := (E.lodepng_decode st dst.w dst.h src.data src.size).h }
            ≤ E.image_size dst
        · rw [png_decompress_of_copy hs he hle]; intro h; cases h
        · rw [png_decompress_of_raise hs he (Nat.lt_of_not_le hle)]
          intro _
          simp [acquisitions_append, releases_append, acquisitions, releases, List.count_cons]
      · rw [png_decompress_of_codec_error hs he]
        intro _
        simp [acquisitions_append, releases_append, acquisitions, releases, List.count_cons]

/-- Witness of `failure_leaves_arena_acquired`: the failing compression of a
chroma-subsampled source. -/
theorem failure_leaves_arena_acquired_witness :
    acquisitions (png_compress demo_env yuv_2x1 fresh_dst []).trace = acquisitions [] + 1 ∧
    releases (png_compress demo_env yuv_2x1 fresh_dst []).trace = releases [] :=
  (failure_leaves_arena_acquired demo_env yuv_2x1 fresh_dst []).1 (by decide)
    .unsupported_format (by decide)

/-- C4, counterexample: decoding a 2 × 2 image into a 1 × 1 grayscale
destination fails with the in-place-overflow error, and the destination's
width and height are 2 and 2 afterwards, not 1 and 1 as before the call. -/
theorem png_decompress_overflow_changes_geometry :
    (png_decompress demo_env gray_1x1 png_of_gray_2x2 []).result = .error .in_place_overflow ∧
    gray_1x1.w = 1 ∧ gray_1x1.h = 1 ∧
    (png_decompress demo_env gray_1x1 png_of_gray_2x2 []).dst.w = 2 ∧
    (png_decompress demo_env gray_1x1 png_of_gray_2x2 []).dst.h = 2 ∧
    (png_decompress demo_env gray_1x1 png_of_gray_2x2 []).dst ≠ gray_1x1 := by
  decide

/-- C4, amended: a failing call of `png_compress` leaves the destination
descriptor identical to what it was before the call.  A failing call of
`png_decompress` leaves the destination's pixel format, byte-size and storage
contents unchanged; its width and height are unchanged on the
unsupported-format failure, and on a codec error or an in-place overflow they
are the values the codec stored through the pointers it was handed. -/
theorem failure_atomicity (E : Env) (src dst : image_t) (tr : List Event) :
    (∀ e, (png_compress E src dst tr).result = .error e →
      (png_compress E src dst tr).dst = dst) ∧
    (∀ e, (png_decompress E dst src tr).result = .error e →
      (png_decompress E dst src tr).dst.pixfmt = dst.pixfmt ∧
      (png_decompress E dst src tr).dst.size = dst.size ∧
      (png_decompress E dst src tr).dst.data = dst.data ∧
      (e = .unsupported_format → (png_decompress E dst src tr).dst = dst) ∧
      (∀ st, decompress_state dst.pixfmt E.lodepng_state_init = .ok st →
        (png_decompress E dst src tr).dst.w
          = (E.lodepng_decode st dst.w dst.h src.data src.size).w ∧
        (png_decompress E dst src tr).dst.h
          = (E.lodepng_decode st dst.w dst.h src.data src.size).h)) := by
  constructor
  · intro e
    cases hc : src.is_compressed with
    | true => simp [png_compress, hc]
    | false =>
      cases hs : compress_state src.pixfmt E.lodepng_state_init with
      | error e0 => rw [png_compress_of_switch_error hc hs]; intro _; rfl
      | ok st =>
        by_cases he : (E.lodepng_encode st src.data src.w src.h).error = 0
        · cases hd : dst.data with
          | none => rw [png_compress_of_adopt hc hs he hd]; intro h; cases h
          | some buf =>
            by_cases hle : E.image_size dst ≤ (E.lodepng_encode st src.data src.w src.h).png_size
            · rw [png_compress_of_copy hc hs he hd hle]; intro h; cases h
            · rw [png_compress_of_raise hc hs he hd (Nat.lt_of_not_le hle)]; intro _; rfl
        · rw [png_compress_of_codec_error hc hs he]; intro _; rfl
  · intro e
    cases hs : decompress_state dst.pixfmt E.lodepng_state_init with
    | error e0 =>
      rw [png_decompress_of_switch_error hs]
      intro _
      simp
    | ok st =>
      by_cases he : (E.lodepng_decode st dst.w dst.h src.data src.size).error = 0
      · by_cases hle : E.image_size
            { dst with w := (E.lodepng_decode st dst.w dst.h src.data src.size).w,
                       h := (E.lodepng_decode st dst.w dst.h src.data src.size).h }
            ≤ E.image_size dst
        · rw [png_decompress_of_copy hs he hle]; intro h; cases h
        · rw [png_decompress_of_raise hs he (Nat.lt_of_not_le hle)]
          intro h
          simp at h
          subst h
          simp
      · rw [png_decompress_of_codec_error hs he]
        intro h
        simp at h
        subst h
        simp

/-- Witness of `failure_atomicity`: the failing decode of a 2 × 2 image into a
1 × 1 destination keeps format, byte-size and storage, and stores the decoded
geometry. -/
theorem failure_atomicity_witness :
    (png_decompress demo_env gray_1x1 png_of_gray_2x2 []).dst.pixfmt = gray_1x1.pixfmt ∧
    (png_decompress demo_env gray_1x1 png_of_gray_2x2 []).dst.size = gray_1x1.size ∧
    (png_decompress demo_env gray_1x1 png_of_gray_2x2 []).dst.data = gray_1x1.data ∧
    (png_decompress demo_env gray_1x1 png_of_gray_2x2 []).dst.w = 2 ∧
    (png_decompress demo_env gray_1x1 png_of_gray_2x2 []).dst.h = 2 :=
  have h := (failure_atomicity demo_env png_of_gray_2x2 gray_1x1 []).2
    .in_place_overflow (by decide)
  ⟨h.1, h.2.1, h.2.2.1,
   (h.2.2.2.2 ⟨⟨8, .LCT_GREY⟩, ⟨8, .LCT_other 6⟩, true⟩ (by decide)).1,
   (h.2.2.2.2 ⟨⟨8, .LCT_GREY⟩, ⟨8, .LCT_other 6⟩, true⟩ (by decide)).2⟩

/-- C1, the code at the failing inputs.  Source: a 2 × 2 grayscale image, for
which the stand-in codec produces 6 bytes.  (a) Destination of capacity 1 (a
1 × 1 grayscale descriptor owning one byte): capacity < produced size, yet the
call returns normally, sets the size to 6 and copies all 6 bytes over the
one-byte storage.  (b) Destination of capacity 16 (4 × 4 grayscale, sixteen
bytes): capacity ≥ produced size, yet the call fails with the
in-place-overflow error and copies nothing. -/
theorem png_compress_in_place_test_inverted :
    (demo_env.image_size gray_1x1 = 1 ∧
     (png_compress demo_env gray_2x2 gray_1x1 []).result = .ok false ∧
     (png_compress demo_env gray_2x2 gray_1x1 []).dst.size = 6 ∧
     (png_compress demo_env gray_2x2 gray_1x1 []).dst.data = some [2, 2, 1, 2, 3, 4] ∧
     Event.memcpy 6 ∈ (png_compress demo_env gray_2x2 gray_1x1 []).trace) ∧
    (demo_env.image_size gray_4x4_blank = 16 ∧
     (png_compress demo_env gray_2x2 gray_4x4_blank []).result = .error .in_place_overflow ∧
     (png_compress demo_env gray_2x2 gray_4x4_blank []).dst = gray_4x4_blank) := by
  decide

/-- C7: in-place decode bound.  For a destination format on which the switch
does not raise (Binary, Grayscale and RGB565 are such formats) and a codec call
that succeeds with result `r`, let `capacity` be `image_size(dst)` before
the call and `n` be `image_size` of `dst` with the decoded width and height.
If `n ≤ capacity` the call succeeds, the destination carries the decoded width
and height, its storage is the old storage with the first `n` bytes replaced
by the first `n` bytes of the codec output (so at most `capacity` bytes are
written and the bytes from offset `n` on are untouched), and the trace ends
with the copy of `n` bytes followed by the single release of the arena.  If
`n > capacity` the call fails with the in-place-overflow error, the storage is
untouched and no copy is made. -/
theorem png_decompress_in_place_bound (E : Env) (dst src : image_t) (tr : List Event)
    (st : LodePNGState) (r : decode_result)
    (hs : decompress_state dst.pixfmt E.lodepng_state_init = .ok st)
    (hr : E.lodepng_decode st dst.w dst.h src.data src.size = r)
    (he : r.error = 0) :
    (E.image_size { dst with w := r.w, h := r.h } ≤ E.image_size dst →
      (png_decompress E dst src tr).result = .ok () ∧
      (png_decompress E dst src tr).dst.w = r.w ∧
      (png_decompress E dst src tr).dst.h = r.h ∧
      (png_decompress E dst src tr).dst.pixfmt = dst.pixfmt ∧
      (png_decompress E dst src tr).dst.size = dst.size ∧
      (png_decompress E dst src tr).dst.data
        = dst.data.map (fun buf =>
            memcpy buf r.png_data (E.image_size { dst with w := r.w, h := r.h })) ∧
      (∀ buf, dst.data = some buf →
        E.image_size { dst with w := r.w, h := r.h } ≤ r.png_data.length →
        ∃ buf2, (png_decompress E dst src tr).dst.data = some buf2 ∧
          buf2.take (E.image_size { dst with w := r.w, h := r.h })
            = r.png_data.take (E.image_size { dst with w := r.w, h := r.h }) ∧
          buf2.drop (E.image_size { dst with w := r.w, h := r.h })
            = buf.drop (E.image_size { dst with w := r.w, h := r.h })) ∧
      (png_decompress E dst src tr).trace
        = tr ++ [Event.umm_init_x, Event.lodepng_state_init,
                 Event.lodepng_decode st src.data src.size, Event.lodepng_state_cleanup,
                 Event.memcpy (E.image_size { dst with w := r.w, h := r.h }),
                 Event.fb_free] ∧
      acquisitions (png_decompress E dst src tr).trace = acquisitions tr + 1 ∧
      releases (png_decompress E dst src tr).trace = releases tr + 1) ∧
    (E.image_size dst < E.image_size { dst with w := r.w, h := r.h } →
      (png_decompress E dst src tr).result = .error .in_place_overflow ∧
      (png_decompress E dst src tr).dst.data = dst.data ∧
      (png_decompress E dst src tr).trace
        = tr ++ [Event.umm_init_x, Event.lodepng_state_init,
                 Event.lodepng_decode st src.data src.size, Event.lodepng_state_cleanup]) := by
  subst hr
  constructor
  · intro hle
    rw [png_decompress_of_copy hs he hle]
    refine ⟨rfl, rfl, rfl, rfl, rfl, rfl, ?_, rfl, ?_, ?_⟩
    · intro buf hbuf hlen
      exact ⟨_, by rw [hbuf]; rfl, memcpy_take _ _ _ hlen, memcpy_drop _ _ _ hlen⟩
    · simp [acquisitions_append, acquisitions, List.count_cons]
    · simp [releases_append, releases, List.count_cons]
  · intro hlt
    rw [png_decompress_of_raise hs he hlt]
    exact ⟨rfl, rfl, rfl⟩

/-- Witness of `png_decompress_in_place_bound`: decoding the stand-in encoding
of the 2 × 2 image into a 4 × 4 grayscale destination (n = 4, capacity 16). -/
theorem png_decompress_in_place_bound_witness :
    (png_decompress demo_env gray_4x4_blank png_of_gray_2x2 []).result = .ok () ∧
    (png_decompress demo_env gray_4x4_blank png_of_gray_2x2 []).dst.w = 2 ∧
    (png_decompress demo_env gray_4x4_blank png_of_gray_2x2 []).dst.h = 2 :=
  have h := (png_decompress_in_place_bound demo_env gray_4x4_blank png_of_gray_2x2 []
    ⟨⟨8, .LCT_GREY⟩, ⟨8, .LCT_other 6⟩, true⟩ ⟨0, [1, 2, 3, 4], 2, 2⟩
    (by decide) (by decide) (by decide)).1 (by decide)
  ⟨h.1, h.2.1, h.2.2.1⟩

/-- C9: the pixel-format translation table.  From any initial codec state `s0`,
the switch of `png_compress` yields raw 1/grey, encoded 8/grey, auto-convert
off for Binary; raw 8/grey, encoded 8/grey, auto-convert off for Grayscale; raw
16/RGB565, encoded 8/RGB, auto-convert off for RGB565; and raises the
unsupported-format error for YUV and Bayer.  The switch of `png_decompress`
yields the same raw side; it forces the encoded side (8/RGB, auto-convert off)
only for RGB565 and leaves encoded side and auto-convert as in `s0` for Binary
and Grayscale; it raises the same error for YUV and Bayer.  The state so
derived from the codec's initial state is the one, and the only one, handed to
`lodepng_encode` by `png_compress` and to `lodepng_decode` by
`png_decompress`. -/
theorem pixel_format_translation (E : Env) (s0 : LodePNGState) (a b : image_t) :
    (compress_state .PIXFORMAT_BINARY s0 = .ok ⟨⟨1, .LCT_GREY⟩, ⟨8, .LCT_GREY⟩, false⟩ ∧
     compress_state .PIXFORMAT_GRAYSCALE s0 = .ok ⟨⟨8, .LCT_GREY⟩, ⟨8, .LCT_GREY⟩, false⟩ ∧
     compress_state .PIXFORMAT_RGB565 s0 = .ok ⟨⟨16, .LCT_RGB565⟩, ⟨8, .LCT_RGB⟩, false⟩ ∧
     compress_state .PIXFORMAT_YUV_ANY s0 = .error .unsupported_format ∧
     compress_state .PIXFORMAT_BAYER_ANY s0 = .error .unsupported_format) ∧
    (decompress_state .PIXFORMAT_BINARY s0
       = .ok ⟨⟨1, .LCT_GREY⟩, s0.info_png_color, s0.encoder_auto_convert⟩ ∧
     decompress_state .PIXFORMAT_GRAYSCALE s0
       = .ok ⟨⟨8, .LCT_GREY⟩, s0.info_png_color, s0.encoder_auto_convert⟩ ∧
     decompress_state .PIXFORMAT_RGB565 s0 = .ok ⟨⟨16, .LCT_RGB565⟩, ⟨8, .LCT_RGB⟩, false⟩ ∧
     decompress_state .PIXFORMAT_YUV_ANY s0 = .error .unsupported_format ∧
     decompress_state .PIXFORMAT_BAYER_ANY s0 = .error .unsupported_format) ∧
    (a.is_compressed = false →
      (∀ e, compress_state a.pixfmt E.lodepng_state_init = .error e →
        (png_compress E a b []).result = .error e) ∧
      (∀ st, compress_state a.pixfmt E.lodepng_state_init = .ok st →
        Event.lodepng_encode st a.data a.w a.h ∈ (png_compress E a b []).trace ∧
        ∀ st2 image w h, Event.lodepng_encode st2 image w h ∈ (png_compress E a b []).trace →
          st2 = st)) ∧
    ((∀ e, decompress_state a.pixfmt E.lodepng_state_init = .error e →
        (png_decompress E a b []).result = .error e) ∧
      (∀ st, decompress_state a.pixfmt E.lodepng_state_init = .ok st →
        Event.lodepng_decode st b.data b.size ∈ (png_decompress E a b []).trace ∧
        ∀ st2 input insize, Event.lodepng_decode st2 input insize
            ∈ (png_decompress E a b []).trace → st2 = st)) := by
  refine ⟨⟨rfl, rfl, rfl, rfl, rfl⟩, ⟨rfl, rfl, rfl, rfl, rfl⟩, ?_, ?_, ?_⟩
  · intro hc
    refine ⟨fun e hs => by rw [png_compress_of_switch_error hc hs], fun st hs => ?_⟩
    by_cases he : (E.lodepng_encode st a.data a.w a.h).error = 0
    · cases hd : b.data with
      | none =>
        rw [png_compress_of_adopt hc hs he hd]
        simp
        intro st2 _ _ _ h _ _ _
        exact h
      | some buf =>
        by_cases hle : E.image_size b ≤ (E.lodepng_encode st a.data a.w a.h).png_size
        · rw [png_compress_of_copy hc hs he hd hle]
          simp
          intro st2 _ _ _ h _ _ _
          exact h
        · rw [png_compress_of_raise hc hs he hd (Nat.lt_of_not_le hle)]
          simp
          intro st2 _ _ _ h _ _ _
          exact h
    · rw [png_compress_of_codec_error hc hs he]
      simp
      intro st2 _ _ _ h _ _ _
      exact h
  · intro e hs
    rw [png_decompress_of_switch_error hs]
  · intro st hs
    by_cases he : (E.lodepng_decode st a.w a.h b.data b.size).error = 0
    · by_cases hle : E.image_size
          { a with w := (E.lodepng_decode st a.w a.h b.data b.size).w,
                   h := (E.lodepng_decode st a.w a.h b.data b.size).h }
          ≤ E.image_size a
      · rw [png_decompress_of_copy hs he hle]
        simp
        intro st2 _ _ h _ _
        exact h
      · rw [png_decompress_of_raise hs he (Nat.lt_of_not_le hle)]
        simp
        intro st2 _ _ h _ _
        exact h
    · rw [png_decompress_of_codec_error hs he]
      simp
      intro st2 _ _ h _ _
      exact h

/-- Witness of `pixel_format_translation`: for the 2 × 2 grayscale source the
encoder is called with raw 8/grey, encoded 8/grey and auto-convert off. -/
theorem pixel_format_translation_witness :
    Event.lodepng_encode ⟨⟨8, .LCT_GREY⟩, ⟨8, .LCT_GREY⟩, false⟩ gray_2x2.data gray_2x2.w
        gray_2x2.h
      ∈ (png_compress demo_env gray_2x2 fresh_dst []).trace :=
  (((pixel_format_translation demo_env demo_env.lodepng_state_init gray_2x2 fresh_dst).2.2.1
    (by decide)).2 ⟨⟨8, .LCT_GREY⟩, ⟨8, .LCT_GREY⟩, false⟩ (by decide)).1

/-- C10: the write path.  If the image is compressed-PNG, `png_write` writes
exactly the first `size` bytes of the image's own storage and makes no codec
or arena call.  Otherwise, for a supported format and a codec call that
succeeds with result `r`, the scratch destination (which had no storage) adopts
the codec's buffer with size `r.png_size`, the bytes written are the first
`r.png_size` bytes of the codec output, the caller's descriptor is unchanged,
and the arena is acquired exactly once and released exactly once, the release
coming after the write. -/
theorem png_write_path (E : Env) (img : image_t) (tr : List Event) :
    (img.pixfmt = .PIXFORMAT_PNG →
      (png_write E img tr).result = .ok () ∧
      (png_write E img tr).img = img ∧
      (png_write E img tr).trace
        = tr ++ [Event.file_write_open, Event.write_data ((img.data.getD []).take img.size),
                 Event.file_close]) ∧
    (∀ st r, supported img.pixfmt →
      compress_state img.pixfmt E.lodepng_state_init = .ok st →
      E.lodepng_encode st img.data img.w img.h = r → r.error = 0 →
      (png_compress E img ⟨img.w, img.h, .PIXFORMAT_PNG, 0, none⟩
          (tr ++ [Event.file_write_open])).dst
        = ⟨img.w, img.h, .PIXFORMAT_PNG, r.png_size, some r.png_data⟩ ∧
      (png_write E img tr).result = .ok () ∧
      (png_write E img tr).img = img ∧
      (png_write E img tr).trace
        = tr ++ [Event.file_write_open, Event.umm_init_x, Event.lodepng_state_init,
                 Event.lodepng_encode st img.data img.w img.h, Event.lodepng_state_cleanup,
                 Event.write_data (r.png_data.take r.png_size), Event.fb_free,
                 Event.file_close] ∧
      acquisitions (png_write E img tr).trace = acquisitions tr + 1 ∧
      releases (png_write E img tr).trace = releases tr + 1) := by
  constructor
  · intro hp
    simp [png_write, hp, bytes_at]
  · intro st r hfmt hs hr he
    subst hr
    have hne : img.pixfmt ≠ .PIXFORMAT_PNG := by
      rcases hfmt with h | h | h <;> rw [h] <;> decide
    have hc : img.is_compressed = false := by
      simp [image_t.is_compressed, hne]
    have hcomp := @png_compress_of_adopt E img ⟨img.w, img.h, .PIXFORMAT_PNG, 0, none⟩
      (tr ++ [Event.file_write_open]) st hc hs he rfl
    have hw : png_write E img tr
        = ⟨.ok (), img,
           tr ++ [Event.file_write_open, Event.umm_init_x, Event.lodepng_state_init,
                  Event.lodepng_encode st img.data img.w img.h, Event.lodepng_state_cleanup,
                  Event.write_data ((E.lodepng_encode st img.data img.w img.h).png_data.take
                    (E.lodepng_encode st img.data img.w img.h).png_size),
                  Event.fb_free, Event.file_close]⟩ := by
      simp [png_write, hne, hcomp, bytes_at]
    rw [hcomp, hw]
    refine ⟨rfl, rfl, rfl, rfl, ?_, ?_⟩
    · simp [acquisitions_append, acquisitions, List.count_cons]
    · simp [releases_append, releases, List.count_cons]

/-- Witness of `png_write_path`: writing the 2 × 2 grayscale image writes the six
bytes produced by the stand-in codec, between one acquisition and one release. -/
theorem png_write_path_witness :
    (png_write demo_env gray_2x2 []).result = .ok () ∧
    (png_write demo_env gray_2x2 []).img = gray_2x2 ∧
    (png_write demo_env gray_2x2 []).trace
      = [] ++ [Event.file_write_open, Event.umm_init_x, Event.lodepng_state_init,
               Event.lodepng_encode ⟨⟨8, .LCT_GREY⟩, ⟨8, .LCT_GREY⟩, false⟩ gray_2x2.data
                 gray_2x2.w gray_2x2.h,
               Event.lodepng_state_cleanup,
               Event.write_data
                 ((⟨0, [2, 2, 1, 2, 3, 4], 6⟩ : encode_result).png_data.take
                   (⟨0, [2, 2, 1, 2, 3, 4], 6⟩ : encode_result).png_size),
               Event.fb_free, Event.file_close] :=
  have h := (png_write_path demo_env gray_2x2 []).2
    ⟨⟨8, .LCT_GREY⟩, ⟨8, .LCT_GREY⟩, false⟩ ⟨0, [2, 2, 1, 2, 3, 4], 6⟩
    (by decide) (by decide) (by decide) (by decide)
  ⟨h.2.1, h.2.2.1, h.2.2.2.1⟩

/-- C5: round trip.  Let `B` be an image of a supported format whose storage
holds `raw`, of `image_size(B)` bytes, let the codec be a lossless pair on
`raw` with `B`'s geometry, and let the encoder accept `B` (return no error).
Compressing `B` into a destination without storage succeeds, and decompressing that result into a destination `D` of `B`'s pixel
format, width and height (hence of the same image size) that owns
`image_size(B)` bytes of storage succeeds and leaves `D` with `B`'s width,
`B`'s height and storage equal to `raw`. -/
theorem png_round_trip (E : Env) (B dst0 D : image_t) (raw store : List uint8_t)
    (tr : List Event)
    (hfmt : supported B.pixfmt)
    (hraw : B.data = some raw) (hrawlen : raw.length = E.image_size B)
    (hcodec : lossless_on E raw B.w B.h)
    (henc : ∀ se, compress_state B.pixfmt E.lodepng_state_init = .ok se →
      (E.lodepng_encode se B.data B.w B.h).error = 0)
    (hd0 : dst0.data = none)
    (hDfmt : D.pixfmt = B.pixfmt) (hDw : D.w = B.w) (hDh : D.h = B.h)
    (hDsize : E.image_size D = E.image_size B)
    (hDdata : D.data = some store) (hstore : store.length = E.image_size B) :
    (png_compress E B dst0 tr).result = .ok false ∧
    (png_decompress E D (png_compress E B dst0 tr).dst
        (png_compress E B dst0 tr).trace).result = .ok () ∧
    (png_decompress E D (png_compress E B dst0 tr).dst
        (png_compress E B dst0 tr).trace).dst.w = B.w ∧
    (png_decompress E D (png_compress E B dst0 tr).dst
        (png_compress E B dst0 tr).trace).dst.h = B.h ∧
    (png_decompress E D (png_compress E B dst0 tr).dst
        (png_compress E B dst0 tr).trace).dst.pixfmt = B.pixfmt ∧
    (png_decompress E D (png_compress E B dst0 tr).dst
        (png_compress E B dst0 tr).trace).dst.data = some raw := by
  obtain ⟨se, sd, hse, hsd, hagree⟩ := switches_agree_on_raw B.pixfmt E.lodepng_state_init hfmt
  have hc := not_compressed_of_supported B hfmt
  have he := henc se hse
  have hdec := hcodec se sd D.w D.h hagree (by rw [← hraw]; exact he)
  rw [← hraw] at hdec
  rw [← hDfmt] at hsd
  rw [png_compress_of_adopt hc hse he hd0]
  have hdec2 : E.lodepng_decode sd D.w D.h
      (image_t.mk dst0.w dst0.h dst0.pixfmt (E.lodepng_encode se B.data B.w B.h).png_size
        (some (E.lodepng_encode se B.data B.w B.h).png_data)).data
      (image_t.mk dst0.w dst0.h dst0.pixfmt (E.lodepng_encode se B.data B.w B.h).png_size
        (some (E.lodepng_encode se B.data B.w B.h).png_data)).size
      = ⟨0, raw, B.w, B.h⟩ := hdec
  have hD : ({ D with w := B.w, h := B.h } : image_t) = D := by
    rw [← hDw, ← hDh]
  refine ⟨rfl, ?_⟩
  rw [png_decompress_of_copy hsd (by rw [hdec2]) (by rw [hdec2]; simp only; rw [hD])]
  rw [hdec2]
  simp only [hD]
  refine ⟨trivial, trivial, trivial, hDfmt, ?_⟩
  rw [hDdata, Option.map_some', memcpy_full store raw (E.image_size D) (by omega) (by omega)]

/-- Witness of `png_round_trip`, on the example of the spec: a 4 × 4 grayscale
image with every pixel 128 comes back as the same sixteen bytes with width 4
and height 4. -/
theorem png_round_trip_witness :
    (png_compress demo_env gray_4x4_128 fresh_dst []).result = .ok false ∧
    (png_decompress demo_env gray_4x4_blank (png_compress demo_env gray_4x4_128 fresh_dst []).dst
        (png_compress demo_env gray_4x4_128 fresh_dst []).trace).result = .ok () ∧
    (png_decompress demo_env gray_4x4_blank (png_compress demo_env gray_4x4_128 fresh_dst []).dst
        (png_compress demo_env gray_4x4_128 fresh_dst []).trace).dst.w = gray_4x4_128.w ∧
    (png_decompress demo_env gray_4x4_blank (png_compress demo_env gray_4x4_128 fresh_dst []).dst
        (png_compress demo_env gray_4x4_128 fresh_dst []).trace).dst.h = gray_4x4_128.h ∧
    (png_decompress demo_env gray_4x4_blank (png_compress demo_env gray_4x4_128 fresh_dst []).dst
        (png_compress demo_env gray_4x4_128 fresh_dst []).trace).dst.pixfmt
      = gray_4x4_128.pixfmt ∧
    (png_decompress demo_env gray_4x4_blank (png_compress demo_env gray_4x4_128 fresh_dst []).dst
        (png_compress demo_env gray_4x4_128 fresh_dst []).trace).dst.data
      = some (List.replicate 16 128) :=
  png_round_trip demo_env gray_4x4_128 fresh_dst gray_4x4_blank (List.replicate 16 128)
    (List.replicate 16 0) [] (by decide) (by decide) (by decide)
    (fun _ _ _ _ _ _ => rfl) (fun _ _ => rfl) (by decide) (by decide) (by decide) (by decide)
    (by decide) (by decide) (by decide)

/-- C8: geometry-only read.  On a store of at least 24 bytes,
`png_read_geometry` fails with the corrupt-store error if and only if bytes
12..15 are not the tag "IHDR" (and then writes nothing to the image);
otherwise it succeeds and sets the width to the big-endian 32-bit value of
bytes 16..19, the height to that of bytes 20..23, the pixel format to
compressed-PNG and the size to `IMLIB_IMAGE_MAX_SIZE` of the store's length.
Outcome, width, height and pixel format are the same for any other store of at
least 24 bytes that agrees on the first 24 bytes. -/
theorem png_read_geometry_spec (E : Env) (store : List uint8_t) (p0 : Nat) (img : image_t)
    (rs : png_read_settings_t) (h24 : 24 ≤ store.length) :
    ((png_read_geometry E ⟨store, p0⟩ img rs).result = .error .file_corrupted
      ↔ ¬ has_ihdr_tag store) ∧
    (¬ has_ihdr_tag store → (png_read_geometry E ⟨store, p0⟩ img rs).img = img) ∧
    (has_ihdr_tag store →
      (png_read_geometry E ⟨store, p0⟩ img rs).result = .ok () ∧
      (png_read_geometry E ⟨store, p0⟩ img rs).img.w = be32_at store 16 ∧
      (png_read_geometry E ⟨store, p0⟩ img rs).img.h = be32_at store 20 ∧
      (png_read_geometry E ⟨store, p0⟩ img rs).img.pixfmt = .PIXFORMAT_PNG ∧
      (png_read_geometry E ⟨store, p0⟩ img rs).img.size
        = E.IMLIB_IMAGE_MAX_SIZE store.length ∧
      (png_read_geometry E ⟨store, p0⟩ img rs).img.data = img.data) ∧
    (∀ store2 : List uint8_t, 24 ≤ store2.length →
      (∀ i, i < 24 → store2.getD i 0 = store.getD i 0) →
      (png_read_geometry E ⟨store2, p0⟩ img rs).result
        = (png_read_geometry E ⟨store, p0⟩ img rs).result ∧
      (png_read_geometry E ⟨store2, p0⟩ img rs).img.w
        = (png_read_geometry E ⟨store, p0⟩ img rs).img.w ∧
      (png_read_geometry E ⟨store2, p0⟩ img rs).img.h
        = (png_read_geometry E ⟨store, p0⟩ img rs).img.h ∧
      (png_read_geometry E ⟨store2, p0⟩ img rs).img.pixfmt
        = (png_read_geometry E ⟨store, p0⟩ img rs).img.pixfmt) := by
  refine ⟨?_, ?_, ?_, ?_⟩
  · rw [png_read_geometry_eq E store p0 img rs h24]
    by_cases ht : has_ihdr_tag store
    · simp [ht]
    · simp [ht]
  · intro ht
    rw [png_read_geometry_eq E store p0 img rs h24, if_neg ht]
  · intro ht
    rw [png_read_geometry_eq E store p0 img rs h24, if_pos ht]
    exact ⟨rfl, rfl, rfl, rfl, rfl, rfl⟩
  · intro store2 h24b hsame
    have htag : has_ihdr_tag store2 ↔ has_ihdr_tag store := by
      unfold has_ihdr_tag
      rw [hsame 12 (by omega), hsame 13 (by omega), hsame 14 (by omega), hsame 15 (by omega)]
    have hw : be32_at store2 16 = be32_at store 16 := by
      unfold be32_at
      rw [hsame 16 (by omega), hsame 17 (by omega), hsame 18 (by omega), hsame 19 (by omega)]
    have hh : be32_at store2 20 = be32_at store 20 := by
      unfold be32_at
      rw [hsame 20 (by omega), hsame 21 (by omega), hsame 22 (by omega), hsame 23 (by omega)]
    rw [png_read_geometry_eq E store p0 img rs h24,
      png_read_geometry_eq E store2 p0 img rs h24b]
    by_cases ht : has_ihdr_tag store
    · rw [if_pos ht, if_pos (htag.mpr ht)]
      exact ⟨rfl, hw, hh, rfl⟩
    · rw [if_neg ht, if_neg (fun h => ht (htag.mp h))]
      exact ⟨rfl, rfl, rfl, rfl⟩

/-- Witness of `png_read_geometry_spec`: the 24-byte header of a 4 × 4 PNG file
gives width 4 and height 4. -/
theorem png_read_geometry_spec_witness :
    (png_read_geometry demo_env ⟨png_header_4x4, 0⟩ fresh_dst ⟨0, 0, 0⟩).result = .ok () ∧
    (png_read_geometry demo_env ⟨png_header_4x4, 0⟩ fresh_dst ⟨0, 0, 0⟩).img.w
      = be32_at png_header_4x4 16 ∧
    be32_at png_header_4x4 16 = 4 :=
  have h := (png_read_geometry_spec demo_env png_header_4x4 0 fresh_dst ⟨0, 0, 0⟩
    (by decide)).2.2.1 (by decide)
  ⟨h.1, h.2.1, by decide⟩

end Png
